import Mathlib

/-!
Verification of the OpenVAS MCP server (a Python integration layer exposing
Greenbone Vulnerability Manager over a tool-calling protocol).

Each definition below is a shallow embedding of a function of the repository,
translated statement by statement from the Python source:

* `defaultTargetName`           ← `src/tools/utils/helpers.py::_default_target_name`
* `startScanCreateTargetKwargs` ← `src/tools/vm_workflow_tools.py::start_scan` (target-name
                                   and port resolution, lines 110–123)
* `truncateText`                ← `src/tools/utils/helpers.py::_truncate`
* `buildTxtReportOutput`        ← `src/tools/utils/helpers.py::_build_txt_report_output`
* `rowsSearch`/`addRowsToFilterString` ← `src/services/gvm_client.py::GvmClient._add_rows_to_filter_string`

Python strings are modelled as `List Char` (sequences of Unicode code points)
or as Lean `String` where the code treats them atomically.
-/

set_option maxHeartbeats 1000000
set_option maxRecDepth 8192

namespace OpenvasMcp

/-- Whitespace test used by Python's `str.strip()` / `str.isspace()` and by the
`\s` class of the `re` module on `str` patterns: the Unicode whitespace code
points recognised by CPython. -/
def pyIsSpace (c : Char) : Bool :=
  (c.toNat == 0x20) || (0x9 ≤ c.toNat && c.toNat ≤ 0xD) ||
  (0x1C ≤ c.toNat && c.toNat ≤ 0x1F) || (c.toNat == 0x85) || (c.toNat == 0xA0) ||
  (c.toNat == 0x1680) || (0x2000 ≤ c.toNat && c.toNat ≤ 0x200A) ||
  (c.toNat == 0x2028) || (c.toNat == 0x2029) || (c.toNat == 0x202F) ||
  (c.toNat == 0x205F) || (c.toNat == 0x3000)

/-- Python `str.strip()`: drop leading and trailing whitespace. -/
def pyStrip (l : List Char) : List Char :=
  (l.dropWhile pyIsSpace).rdropWhile pyIsSpace

/-- Python slice `text[:k]` for an `int` bound `k` (negative bounds count from
the end, clamped at zero). -/
def pySliceTo (t : List Char) (k : Int) : List Char :=
  if k < 0 then t.take (max 0 ((t.length : Int) + k)).toNat else t.take k.toNat

/-- Lexicographic code-point comparison of character sequences: Python's
`<=` on `str`. -/
def charListLe : List Char → List Char → Bool
  | [], _ => true
  | _ :: _, [] => false
  | a :: as, b :: bs =>
    if a.toNat < b.toNat then true
    else if b.toNat < a.toNat then false
    else charListLe as bs

/-- Python's `<=` on `str`, on Lean strings. -/
def pyStrLe (a b : String) : Prop :=
  charListLe a.data b.data = true

instance : DecidableRel pyStrLe := fun a b =>
  inferInstanceAs (Decidable (charListLe a.data b.data = true))

instance : IsTotal String pyStrLe where
  total a b := by
    have key : ∀ x y : List Char, charListLe x y = true ∨ charListLe y x = true := by
      intro x
      induction x with
      | nil => intro y; exact Or.inl rfl
      | cons a as ih =>
        intro y
        cases y with
        | nil => exact Or.inr rfl
        | cons b bs =>
          simp only [charListLe]
          rcases Nat.lt_trichotomy a.toNat b.toNat with h | h | h
          · left; rw [if_pos h]
          · have h1 : ¬ a.toNat < b.toNat := by omega
            have h2 : ¬ b.toNat < a.toNat := by omega
            rcases ih bs with h' | h'
            · left; rw [if_neg h1, if_neg h2]; exact h'
            · right; rw [if_neg h2, if_neg h1]; exact h'
          · right; rw [if_pos h]
    exact (key a.data b.data).imp id id

instance : IsTrans String pyStrLe where
  trans a b c hab hbc := by
    have key : ∀ x y z : List Char, charListLe x y = true → charListLe y z = true →
        charListLe x z = true := by
      intro x
      induction x with
      | nil => intro y z _ _; rfl
      | cons a as ih =>
        intro y z hxy hyz
        cases y with
        | nil => simp [charListLe] at hxy
        | cons b bs =>
          cases z with
          | nil => simp [charListLe] at hyz
          | cons c cs =>
            simp only [charListLe] at hxy hyz ⊢
            have hab1 : ¬ b.toNat < a.toNat := by
              intro hc
              rw [if_neg (by omega), if_pos hc] at hxy
              exact Bool.noConfusion hxy
            have hbc1 : ¬ c.toNat < b.toNat := by
              intro hc
              rw [if_neg (by omega), if_pos hc] at hyz
              exact Bool.noConfusion hyz
            by_cases hac : a.toNat < c.toNat
            · rw [if_pos hac]
            · have heq : a.toNat = c.toNat := by omega
              have hab2 : ¬ a.toNat < b.toNat := by omega
              have hbc2 : ¬ b.toNat < c.toNat := by omega
              rw [if_neg hab2, if_neg hab1] at hxy
              rw [if_neg hbc2, if_neg hbc1] at hyz
              rw [if_neg hac, if_neg (by omega)]
              exact ih bs cs hxy hyz
    exact key a.data b.data c.data hab hbc

/-- `src/tools/utils/helpers.py::_default_target_name` (identical copy in
`src/tools/_scan_workflow_helpers.py`): generate a default target name from a
list of hosts.  Python's `sorted` on strings is an ascending sort by
code-point order, modelled by `List.insertionSort` with `pyStrLe`. -/
def defaultTargetName (hosts : List String) : String :=
  if hosts.length = 1 then hosts.headI
  else if hosts.length ≤ 3 then ", ".intercalate (hosts.insertionSort pyStrLe)
  else toString hosts.length ++ " hosts"

/-- `src/tools/utils/constants.py::ALL_IANA_ASSIGNED_TCP_PORT_LIST_ID`. -/
def ALL_IANA_ASSIGNED_TCP_PORT_LIST_ID : String :=
  "33d0cd82-57c6-11e1-8ed1-406186ea4fc5"

/-- Python truthiness of an `Optional[str]`: `None` and `""` are falsy. -/
def optStrTruthy : Option String → Bool
  | none => false
  | some s => !(s == "")

/-- The keyword arguments `start_scan` passes to `create_target`
(`src/tools/vm_workflow_tools.py`, lines 118–123). -/
structure CreateTargetKwargs where
  name : String
  hosts : List String
  port_range : Option String
  port_list_id : Option String
  deriving DecidableEq, Repr

/-- `src/tools/vm_workflow_tools.py::start_scan`, lines 110–123: resolve the
target name (`target_name or _default_target_name(hosts)`) and the port
selection, and build the `create_target` keyword arguments. -/
def startScanCreateTargetKwargs (hosts : List String)
    (port_ranges_list port_list_id target_name : Option String) :
    CreateTargetKwargs :=
  let target_name' :=
    if optStrTruthy target_name then target_name.getD ""
    else defaultTargetName hosts
  let pr_pl : Option String × Option String :=
    if optStrTruthy port_list_id then (none, port_list_id)
    else if !optStrTruthy port_list_id && !optStrTruthy port_ranges_list then
      (port_ranges_list, some ALL_IANA_ASSIGNED_TCP_PORT_LIST_ID)
    else (port_ranges_list, port_list_id)
  { name := target_name', hosts := hosts, port_range := pr_pl.1,
    port_list_id := pr_pl.2 }

/-- `src/tools/utils/helpers.py::_truncate`: truncate text to `max_chars`
characters, replacing the tail with `"..."` when truncation occurs. -/
def truncateText (text : Option (List Char)) (max_chars : Int) :
    Option (List Char) :=
  match text with
  | none => none
  | some t =>
    if max_chars ≤ 0 ∨ (t.length : Int) ≤ max_chars then some t
    else some (pySliceTo t (max_chars - 3) ++ ['.', '.', '.'])

/-- One element of a report's mixed content list: the typed sub-records and
inline text chunks consumed by the helpers (projection of the generated
`models.Report` content union). -/
inductive ReportContentItem where
  | task (id name : Option String)
  | creationTime (value : String)
  | scanStart (value : Option String)
  | scanEnd (value : Option String)
  | text (s : List Char)
  deriving DecidableEq, Repr

/-- Projection of the generated `models.Report` record: its id and mixed
content list. -/
structure Report where
  id : Option String
  content : List ReportContentItem
  deriving DecidableEq, Repr

/-- Task id/name pair inside a report metadata summary. -/
structure ReportTaskSummary where
  id : Option String
  name : Option String
  deriving DecidableEq, Repr

/-- Shape of the dictionary built by
`src/tools/utils/helpers.py::_summarize_report_metadata`. -/
structure ReportMetadata where
  id : Option String
  created_at : Option String
  scan_start : Option String
  scan_end : Option String
  task : Option ReportTaskSummary
  deriving DecidableEq, Repr

/-- `_extract_report_content_item(report, models.Task)`: first content item
that is a task. -/
def extractReportTask (r : Report) : Option ReportTaskSummary :=
  r.content.findSome? fun
    | .task i n => some ⟨i, n⟩
    | _ => none

/-- `_extract_report_content_item(report, report.CreationTime)`. -/
def extractCreationTime (r : Report) : Option String :=
  r.content.findSome? fun
    | .creationTime v => some v
    | _ => none

/-- `_extract_report_datetime(report, report.ScanStart)`. -/
def extractScanStart (r : Report) : Option String :=
  (r.content.findSome? fun
    | .scanStart v => some v
    | _ => none).bind id

/-- `_extract_report_datetime(report, report.ScanEnd)`. -/
def extractScanEnd (r : Report) : Option String :=
  (r.content.findSome? fun
    | .scanEnd v => some v
    | _ => none).bind id

/-- `src/tools/utils/helpers.py::_summarize_report_metadata`. -/
def summarizeReportMetadata (report : Option Report) : Option ReportMetadata :=
  match report with
  | none => none
  | some r =>
    some { id := r.id
           created_at := (extractCreationTime r).map id
           scan_start := extractScanStart r
           scan_end := extractScanEnd r
           task := extractReportTask r }

/-- Shape of the dictionary built by
`src/tools/utils/helpers.py::_build_txt_report_output`: keys absent from the
Python dict are `none`. -/
structure TxtReportOutput where
  report : Option ReportMetadata
  report_text : Option (List Char)
  report_text_preview : Option (List Char)
  report_text_truncated : Option Bool
  deriving DecidableEq, Repr

/-- `src/tools/utils/helpers.py::_build_txt_report_output`. -/
def buildTxtReportOutput (report : Report) (report_text : Option (List Char))
    (include_full_text : Bool := true) (preview_chars : Int := 6000) :
    Option TxtReportOutput :=
  match report_text with
  | none => none
  | some rt =>
    if include_full_text then
      some { report := summarizeReportMetadata (some report)
             report_text := some rt
             report_text_preview := none
             report_text_truncated := none }
    else
      some { report := summarizeReportMetadata (some report)
             report_text := none
             report_text_preview := truncateText (some rt) preview_chars
             report_text_truncated := some (decide (preview_chars < (rt.length : Int))) }

/-- Tail of the (mis-escaped) pagination-detection pattern of
`src/services/gvm_client.py::GvmClient._add_rows_to_filter_string`: the raw
pattern `(?:^|\\s)rows\\s*=` contains doubled backslashes, so after the
alternation it demands the literal characters `rows`, a literal backslash,
zero or more literal `s` characters, and `=`. -/
def rowsPatternTail : List Char → Bool
  | 'r' :: 'o' :: 'w' :: 's' :: '\\' :: rest =>
    match rest.dropWhile (fun c => c = 's') with
    | '=' :: _ => true
    | _ => false
  | _ => false

/-- Scan for an occurrence of the two-character literal `\s` followed by the
pattern tail (the `\\s` alternative of the group, which may match at any
position). -/
def rowsSearchAux : List Char → Bool
  | [] => false
  | c :: rest =>
    (c = '\\' && (match rest with
      | 's' :: r => rowsPatternTail r
      | _ => false)) || rowsSearchAux rest

/-- `re.search(r"(?:^|\\s)rows\\s*=", filter_string)` as executed by CPython:
either the `^` alternative matches at position 0, or the literal-`\s`
alternative matches somewhere. -/
def rowsSearch (l : List Char) : Bool :=
  rowsPatternTail l || rowsSearchAux l

/-- `src/services/gvm_client.py::GvmClient._add_rows_to_filter_string`:
result value of `kwargs["filter_string"]` after the call, given whether the
command's signature accepts `filter_string`. -/
def addRowsToFilterString (supportsFilterString : Bool)
    (filter_string : Option String) : Option String :=
  if supportsFilterString then
    let fs := match filter_string with
      | none => ""
      | some s => s
    if fs ≠ "" ∧ rowsSearch fs.toList then filter_string
    else if fs ≠ "" then
      some (String.mk (pyStrip (fs.toList ++ (" rows=-1" : String).toList)))
    else some "rows=-1"
  else filter_string

/-! ### Logging bootstrap (`src/config/logging_config.py`) -/

/-- `_DEFAULT_FORMAT` in `src/config/logging_config.py`. -/
def DEFAULT_FORMAT : String := "%(asctime)s [%(levelname)s] %(name)s: %(message)s"

/-- `_DEFAULT_DATEFMT` in `src/config/logging_config.py`. -/
def DEFAULT_DATEFMT : String := "%d-%m-%Y %H:%M:%S"

/-- A constructed `logging.StreamHandler`.  `objId` models Python object
identity: `Logger.addHandler` deduplicates by object identity (`handler in
self.handlers` with default `object.__eq__`), and each `setup_logging` call
constructs a fresh handler object. -/
structure LogHandler where
  objId : Nat
  stream : String
  format : String
  datefmt : String
  deriving DecidableEq, Repr

/-- State of the process-wide root logger: its level, its handler list, and a
counter supplying fresh object identities. -/
structure RootLoggerState where
  level : Int
  handlers : List LogHandler
  nextObjId : Nat
  deriving DecidableEq, Repr

/-- ASCII `str.upper()` (log level names are ASCII). -/
def asciiUpper (s : String) : String :=
  String.mk (s.data.map fun c =>
    if 'a' ≤ c ∧ c ≤ 'z' then Char.ofNat (c.toNat - 32) else c)

/-- `logging._nameToLevel` lookup table of CPython. -/
def nameToLevel (s : String) : Option Nat :=
  if s = "CRITICAL" then some 50
  else if s = "FATAL" then some 50
  else if s = "ERROR" then some 40
  else if s = "WARN" then some 30
  else if s = "WARNING" then some 30
  else if s = "INFO" then some 20
  else if s = "DEBUG" then some 10
  else if s = "NOTSET" then some 0
  else none

/-- `src/config/logging_config.py::setup_logging` acting on the root logger
state.  `level` is the optional `str | int` argument (`level or
config.LOG_LEVEL` treats `None`, `""` and `0` as falsy); `cfgLogLevel` is the
loaded `LoggingConfig.LOG_LEVEL`.  The function builds one fresh
`StreamHandler(stream=sys.stderr)`, sets the formatter, sets the root level,
and calls `root_logger.addHandler(handler)` (which appends because the fresh
handler is never already present); no existing handler is removed. -/
def setupLogging (level : Option (String ⊕ Int)) (cfgLogLevel : String)
    (st : RootLoggerState) : RootLoggerState :=
  let resolved : String ⊕ Int :=
    match level with
    | some (.inl s) => if s = "" then .inl cfgLogLevel else .inl s
    | some (.inr n) => if n = 0 then .inl cfgLogLevel else .inr n
    | none => .inl cfgLogLevel
  let levelNum : Int :=
    match resolved with
    | .inl s => ((nameToLevel (asciiUpper s)).getD 20 : Nat)
    | .inr n => n
  let handler : LogHandler := ⟨st.nextObjId, "stderr", DEFAULT_FORMAT, DEFAULT_DATEFMT⟩
  let handlers' :=
    if st.handlers.any (fun h => h.objId == handler.objId) then st.handlers
    else st.handlers ++ [handler]
  { level := levelNum, handlers := handlers', nextObjId := st.nextObjId + 1 }

/-- Object-identity well-formedness: every handler attached to the root logger
was allocated before the next fresh object id. -/
def handlersWellFormed (st : RootLoggerState) : Prop :=
  ∀ h ∈ st.handlers, h.objId < st.nextObjId

/-- The root logger at CPython process start: level `WARNING` (30), no
handlers. -/
def initialRootLogger : RootLoggerState := ⟨30, [], 0⟩

/-! ### Server composition root (`src/core/mcp_server.py`) -/

/-- One entry of a `pydantic.ValidationError.errors()` list, as read by
`_format_gvm_config_error`. -/
structure PydanticErr where
  loc : String
  etype : String
  msg : String
  deriving DecidableEq, Repr

/-- `src/core/mcp_server.py::_format_gvm_config_error`. -/
def formatGvmConfigError (errs : List PydanticErr) : String :=
  match errs.findSome? (fun e =>
    if e.loc = "PASSWORD" ∧ e.etype = "missing" then
      some "Failed to load GVM configuration: PASSWORD is required (set it in .env or environment variables)."
    else if e.loc = "PASSWORD" then
      some ("Failed to load GVM configuration: PASSWORD " ++ e.msg ++ ".")
    else none) with
  | some m => m
  | none => "Failed to load GVM configuration: invalid settings."

/-- Does the first character sequence start with the second-to-first argument
order of Python `str.startswith`: `listStartsWith needle haystack` is true iff
`needle` is a leading segment of `haystack`. -/
def listStartsWith : List Char → List Char → Bool
  | [], _ => true
  | _ :: _, [] => false
  | a :: as, b :: bs => a == b && listStartsWith as bs

/-- Python substring containment (`needle in haystack` on `str`). -/
def listContainsSubstr (needle : List Char) : List Char → Bool
  | [] => listStartsWith needle []
  | c :: rest => listStartsWith needle (c :: rest) || listContainsSubstr needle rest

/-- The constructed `GvmClient` held by the server (credentials it was built
with). -/
structure GvmClientModel where
  username : String
  password : String
  deriving DecidableEq, Repr

/-- Mutable state of `GreenboneMCP`: the lazily constructed client reference
and the ready/registered flags. -/
structure GreenboneMCPState where
  gvmClient : Option GvmClientModel
  gvmReady : Bool
  toolsRegistered : Bool
  deriving DecidableEq, Repr

/-- `GreenboneMCP.__init__`: no client, not ready, no tools registered. -/
def initialServerState : GreenboneMCPState := ⟨none, false, false⟩

/-- Environment outcome of `GvmClientConfig()` construction inside
`GreenboneMCP.init`. -/
inductive ConfigOutcome where
  | ok (username password : String)
  | validationError (errs : List PydanticErr)
  deriving DecidableEq, Repr

/-- Environment outcome of `self._gvm_client.authenticate()` inside
`GreenboneMCP.init`: success, a `GvmResponseError`, or any other exception. -/
inductive AuthOutcome where
  | ok
  | gvmResponseError (msg : String)
  | otherError (msg : String)
  deriving DecidableEq, Repr

/-- An exception escaping `GreenboneMCP.init`. -/
inductive InitException where
  | mcpError (code : Int) (message : String)
  | validationError (errs : List PydanticErr)
  | otherException (msg : String)
  deriving DecidableEq, Repr

/-- `mcp.types.INTERNAL_ERROR`. -/
def INTERNAL_ERROR : Int := -32603

/-- `src/core/mcp_server.py::GreenboneMCP.init` as a state transformer: given
the current server state and the outcomes of configuration loading and
authentication, return the escaping exception (if any) and the new state.
Mirrors the source line by line: early return when ready; `GvmClientConfig()`
may raise before the client is assigned; the client is assigned, then
authenticated; only the `GvmResponseError` handler resets `self._gvm_client`
to `None`; on success tools are registered once and the ready flag set. -/
def greenboneInit (st : GreenboneMCPState) (config : ConfigOutcome)
    (auth : AuthOutcome) : Option InitException × GreenboneMCPState :=
  if st.gvmReady then (none, st)
  else
    match config with
    | .validationError errs => (some (.validationError errs), st)
    | .ok u p =>
      let st1 := { st with gvmClient := some ⟨u, p⟩ }
      match auth with
      | .gvmResponseError m =>
        let msg :=
          if listContainsSubstr "Authentication failed".toList m.toList then
            "Failed to authenticate with GVM: wrong credentials."
          else "Failed to authenticate with GVM: " ++ m
        (some (.mcpError INTERNAL_ERROR msg), { st1 with gvmClient := none })
      | .otherError m => (some (.otherException m), st1)
      | .ok => (none, { st1 with toolsRegistered := true, gvmReady := true })

/-- `src/core/mcp_server.py::GreenboneInitMiddleware.on_initialize` error
handling: every exception escaping `init` is converted into (or re-raised as)
a structured `McpError` carrying an error code and message. -/
def onInitializeError : InitException → Int × String
  | .mcpError c m => (c, m)
  | .validationError errs => (INTERNAL_ERROR, formatGvmConfigError errs)
  | .otherException m => (INTERNAL_ERROR, "Failed to initialize Greenbone backend: " ++ m)

/-! ### XML-parsing class factory (`src/services/gvm_client.py`) -/

/-- A Python type annotation as inspected by `GvmClient._allows_none` through
`typing.get_origin`/`get_args`: `Any`, `NoneType`, a `Union[...]`, or any
other (possibly generic) type. -/
inductive PyType where
  | any
  | noneType
  | union (args : List PyType)
  | simple (tyName : String) (args : List PyType)

/-- Is this annotation exactly `NoneType` (`type(None)`)? -/
def isNoneType : PyType → Bool
  | .noneType => true
  | _ => false

/-- `GvmClient._allows_none`: `Any` allows `None`; a `Union` allows `None`
iff `NoneType` is among its arguments; every other annotation has
`get_origin` either a non-`Union` origin or `None` with empty `get_args`, so
the final `origin is None and type(None) in get_args(field_type)` test is
`False`. -/
def allowsNone : PyType → Bool
  | .any => true
  | .union args => args.any isNoneType
  | _ => false

/-- A Python value arriving in the `params` dict of the class factory.  Only
`str` values compare equal to `""`. -/
inductive PyValue where
  | str (s : String)
  | int (n : Int)
  | noneVal
  | other (tag : String)
  deriving DecidableEq, Repr

/-- Python `value == ""`. -/
def pyEqEmptyStr : PyValue → Bool
  | .str s => s == ""
  | _ => false

/-- One `dataclasses.fields(clazz)` entry, with its resolved type hint and the
`init`/`default`/`default_factory` markers read by the factory. -/
structure FieldSpec where
  name : String
  ftype : PyType
  init : Bool
  hasDefault : Bool
  hasDefaultFactory : Bool

/-- A dataclass, as seen by the factory: its field list. -/
structure DataclassSpec where
  fields : List FieldSpec

/-- `field_types.get(key, Any)` where
`field_types = {f.name: resolved.get(f.name, f.type) for f in fields}`. -/
def fieldTypeGet (cls : DataclassSpec) (key : String) : PyType :=
  match cls.fields.find? (fun f => f.name == key) with
  | some f => f.ftype
  | none => .any

/-- `f.default is MISSING and getattr(f, "default_factory", MISSING) is
MISSING`. -/
def requiredField (f : FieldSpec) : Bool :=
  !f.hasDefault && !f.hasDefaultFactory

/-- First loop of `GvmClient._xsdata_class_factory`: empty-string values whose
target field type allows `None` are replaced by `None`. -/
def factoryClean (cls : DataclassSpec) (params : List (String × PyValue)) :
    List (String × PyValue) :=
  params.map fun kv =>
    if pyEqEmptyStr kv.2 && allowsNone (fieldTypeGet cls kv.1) then
      (kv.1, PyValue.noneVal)
    else kv

/-- Second loop of `GvmClient._xsdata_class_factory`: every `init` field that
is required (no default, no default factory) and still has no value is filled
with `None`; the check is made against the growing `cleaned` dict exactly as
in the source. -/
def factoryFillMissing (fields : List FieldSpec)
    (acc : List (String × PyValue)) : List (String × PyValue) :=
  match fields with
  | [] => acc
  | f :: rest =>
    let acc' :=
      if f.init && !(acc.any fun kv => kv.1 == f.name) && requiredField f then
        acc ++ [(f.name, PyValue.noneVal)]
      else acc
    factoryFillMissing rest acc'

/-- `GvmClient._xsdata_class_factory` (identical copy in
`src/services/gvm_adapter.py`): the keyword-argument dict finally passed to
the dataclass constructor. -/
def xsdataClassFactory (cls : DataclassSpec)
    (params : List (String × PyValue)) : List (String × PyValue) :=
  factoryFillMissing cls.fields (factoryClean cls params)

/-! ### Tool handlers (`src/tools/inspection_control_tools.py`,
`src/tools/vm_workflow_tools.py`) -/

/-- A JSON-like Python value as assembled by the tool handlers (dicts, lists,
strings, ints, bools, `None`). -/
inductive JsonVal where
  | str (s : String)
  | num (n : Int)
  | boolVal (b : Bool)
  | null
  | obj (entries : List (String × JsonVal))
  | arr (items : List JsonVal)

/-- Is this value Python `None`? -/
def isNullJson : JsonVal → Bool
  | .null => true
  | _ => false

mutual
/-- `src/tools/utils/helpers.py::_remove_none_values`: recursively drop every
`None`-valued entry from dicts and lists (the `None` test happens before
recursing, exactly as in the comprehensions of the source). -/
def removeNoneValues : JsonVal → JsonVal
  | .obj entries => .obj (removeNoneObj entries)
  | .arr items => .arr (removeNoneArr items)
  | v => v

/-- Dict branch of `_remove_none_values`. -/
def removeNoneObj : List (String × JsonVal) → List (String × JsonVal)
  | [] => []
  | (k, v) :: rest =>
    if isNullJson v then removeNoneObj rest
    else (k, removeNoneValues v) :: removeNoneObj rest

/-- List branch of `_remove_none_values`. -/
def removeNoneArr : List JsonVal → List JsonVal
  | [] => []
  | v :: rest =>
    if isNullJson v then removeNoneArr rest
    else removeNoneValues v :: removeNoneArr rest
end

/-- Convert an `Optional[str]` field into the value placed in a result dict. -/
def optStrJson : Option String → JsonVal
  | none => .null
  | some s => .str s

/-- Convert an `Optional[int]` field into the value placed in a result dict. -/
def optIntJson : Option Int → JsonVal
  | none => .null
  | some n => .num n

/-- Projection of the generated `models.PortList` reference read by the
target tools. -/
structure PortListRef where
  id : Option String
  name : Option String

/-- Projection of the generated `models.Target` restricted to the fields the
tools read. -/
structure TargetModel where
  id : Option String
  name : Option String
  hosts : Option String
  port_list : Option PortListRef

/-- Projection of `models.GetTargetsResponse`: its repeated `target`
element. -/
structure GetTargetsResponse where
  target : List TargetModel

/-- Target reference inside a task, as read by `_summarize_task_status`. -/
structure TaskTargetRef where
  id : Option String
  name : Option String
  hosts : Option String

/-- Projection of the generated `models.Task` restricted to the fields
`_summarize_task_status` reads. -/
structure TaskModel where
  id : Option String
  name : Option String
  status : Option String
  progress : Option Int
  result_count : Option Int
  target : Option TaskTargetRef

/-- Projection of `models.GetTasksResponse`: its repeated `task` element. -/
structure GetTasksResponse where
  task : List TaskModel

/-- Outcome of a `GvmClient` call as observed by a tool handler:
a parsed response, a `GvmError` (message), or its subclass
`RequiredArgument` (argument name). -/
inductive GvmCallResult (α : Type) where
  | ok (response : α)
  | gvmError (msg : String)
  | requiredArgument (argName : String)

/-- Outcome of one tool invocation: a returned result, a raised
`fastmcp.exceptions.ToolError`, or an uncaught `IndexError` escaping the
handler. -/
inductive ToolOutcome where
  | ok (result : JsonVal)
  | toolError (msg : String)
  | indexError

/-- Did the tool fail with a (caught and converted) `ToolError`? -/
def isToolErrorOutcome : ToolOutcome → Bool
  | .toolError _ => true
  | _ => false

/-- `src/tools/inspection_control_tools.py::get_target` (lines 67–92): the
whole body sits in a `try` whose only handler is `except GvmError`
(`RequiredArgument` is a `GvmError` subclass, so it is caught too and
converted via `str(exc)`); `response.target[0]` on an empty list raises
`IndexError`, which that handler does not catch. -/
def getTargetTool (call : GvmCallResult GetTargetsResponse) : ToolOutcome :=
  match call with
  | .gvmError m => .toolError m
  | .requiredArgument a => .toolError a
  | .ok resp =>
    match resp.target with
    | [] => .indexError
    | t :: _ =>
      .ok (.obj [("target", .obj
        [("id", optStrJson t.id),
         ("name", optStrJson t.name),
         ("hosts", optStrJson t.hosts),
         ("port_list",
          match t.port_list with
          | some pl => .obj [("id", optStrJson pl.id), ("name", optStrJson pl.name)]
          | none => .null)])])

/-- `src/tools/utils/helpers.py::_summarize_task_status`. -/
def summarizeTaskStatus (task : TaskModel) : JsonVal :=
  removeNoneValues (.obj
    [("task", .obj
      [("id", optStrJson task.id),
       ("name", optStrJson task.name),
       ("status", optStrJson task.status),
       ("progress", optIntJson task.progress),
       ("result_count", optIntJson task.result_count)]),
     ("target",
      match task.target with
      | some t => .obj [("id", optStrJson t.id), ("name", optStrJson t.name),
                        ("hosts", optStrJson t.hosts)]
      | none => .null)])

/-- `src/tools/vm_workflow_tools.py::scan_status` (lines 171–186): the
`get_task` call is guarded (`RequiredArgument`, then `GvmError`), but
`task_response.task[0]` happens after the `try` block, so an empty task list
raises an uncaught `IndexError`. -/
def scanStatusTool (call : GvmCallResult GetTasksResponse) : ToolOutcome :=
  match call with
  | .requiredArgument a => .toolError ("Missing required argument: " ++ a)
  | .gvmError m => .toolError ("Failed to retrieve task: " ++ m)
  | .ok resp =>
    match resp.task with
    | [] => .indexError
    | t :: _ => .ok (removeNoneValues (summarizeTaskStatus t))

/-! ### Report text decoder (`src/tools/utils/helpers.py::_decode_report_text_blob`) -/

/-- Character class of `_BASE64_CHARS_RE = ^[A-Za-z0-9+/=\s]+$`. -/
def isBase64AllowedChar (c : Char) : Bool :=
  ('A' ≤ c && c ≤ 'Z') || ('a' ≤ c && c ≤ 'z') || ('0' ≤ c && c ≤ '9') ||
  c == '+' || c == '/' || c == '=' || pyIsSpace c

/-- `_BASE64_CHARS_RE.fullmatch(stripped)`: the `+` quantifier demands at
least one character, each in the class. -/
def base64CharsFullmatch (l : List Char) : Bool :=
  !l.isEmpty && l.all isBase64AllowedChar

/-- Standard Base64 alphabet value of a character. -/
def b64Val (c : Char) : Option Nat :=
  if 'A' ≤ c ∧ c ≤ 'Z' then some (c.toNat - 65)
  else if 'a' ≤ c ∧ c ≤ 'z' then some (c.toNat - 97 + 26)
  else if '0' ≤ c ∧ c ≤ '9' then some (c.toNat - 48 + 52)
  else if c = '+' then some 62
  else if c = '/' then some 63
  else none

/-- CPython `binascii.a2b_base64` in non-strict mode (the engine behind
`base64.b64decode(..., validate=False)`): walk the characters keeping a quad
position, the pending bits, and a pad counter; non-alphabet characters are
discarded; once at least two data characters of the current quad have been
seen, enough `=` padding finishes the decode; a dangling quad at the end is
an error (`none` models `binascii.Error`). -/
def a2bBase64NonStrict : List Char → Nat → Nat → Nat → List Nat → Option (List Nat)
  | [], quadPos, _, _, acc =>
    if quadPos = 0 then some acc.reverse else none
  | c :: rest, quadPos, leftchar, pads, acc =>
    if c = '=' then
      if 2 ≤ quadPos ∧ 4 ≤ quadPos + (pads + 1) then some acc.reverse
      else a2bBase64NonStrict rest quadPos leftchar (pads + 1) acc
    else
      match b64Val c with
      | none => a2bBase64NonStrict rest quadPos leftchar pads acc
      | some v =>
        match quadPos with
        | 0 => a2bBase64NonStrict rest 1 v 0 acc
        | 1 => a2bBase64NonStrict rest 2 (v % 16) 0 ((leftchar * 4 + v / 16) :: acc)
        | 2 => a2bBase64NonStrict rest 3 (v % 4) 0 ((leftchar * 16 + v / 4) :: acc)
        | _ => a2bBase64NonStrict rest 0 0 0 ((leftchar * 64 + v) :: acc)

/-- `base64.b64decode(s, validate=False)` on a text already known to contain
only alphabet, `=`, and no whitespace: byte list or failure. -/
def b64decodePyNonStrict (l : List Char) : Option (List Nat) :=
  a2bBase64NonStrict l 0 0 0 []

/-- U+FFFD, the Unicode replacement character. -/
def replacementChar : Char := Char.ofNat 0xFFFD

/-- Is this byte a UTF-8 continuation byte? -/
def isUtf8Cont (b : Nat) : Bool := 0x80 ≤ b && b ≤ 0xBF

/-- CPython `bytes.decode("utf-8", errors="replace")`, structurally recursive
on a fuel counter (each step consumes at least one byte, so any fuel above
the byte count makes the zero-fuel case unreachable): standard UTF-8 decoding
where each maximal ill-formed subsequence (invalid start byte, bad
continuation, overlong/surrogate/out-of-range prefix, or truncated tail)
yields one U+FFFD and decoding resumes at the offending byte. -/
def utf8DecodeReplaceGo : Nat → List Nat → List Char
  | 0, _ => []
  | _, [] => []
  | fuel + 1, b :: rest =>
    if b < 0x80 then Char.ofNat b :: utf8DecodeReplaceGo fuel rest
    else if 0xC2 ≤ b && b ≤ 0xDF then
      match rest with
      | [] => [replacementChar]
      | b1 :: rest1 =>
        if isUtf8Cont b1 then
          Char.ofNat ((b - 0xC0) * 64 + (b1 - 0x80)) :: utf8DecodeReplaceGo fuel rest1
        else replacementChar :: utf8DecodeReplaceGo fuel (b1 :: rest1)
    else if 0xE0 ≤ b && b ≤ 0xEF then
      match rest with
      | [] => [replacementChar]
      | b1 :: rest1 =>
        if (if b = 0xE0 then 0xA0 else 0x80) ≤ b1 &&
            b1 ≤ (if b = 0xED then 0x9F else 0xBF) then
          match rest1 with
          | [] => [replacementChar]
          | b2 :: rest2 =>
            if isUtf8Cont b2 then
              Char.ofNat ((b - 0xE0) * 4096 + (b1 - 0x80) * 64 + (b2 - 0x80)) ::
                utf8DecodeReplaceGo fuel rest2
            else replacementChar :: utf8DecodeReplaceGo fuel (b2 :: rest2)
        else replacementChar :: utf8DecodeReplaceGo fuel (b1 :: rest1)
    else if 0xF0 ≤ b && b ≤ 0xF4 then
      match rest with
      | [] => [replacementChar]
      | b1 :: rest1 =>
        if (if b = 0xF0 then 0x90 else 0x80) ≤ b1 &&
            b1 ≤ (if b = 0xF4 then 0x8F else 0xBF) then
          match rest1 with
          | [] => [replacementChar]
          | b2 :: rest2 =>
            if isUtf8Cont b2 then
              match rest2 with
              | [] => [replacementChar]
              | b3 :: rest3 =>
                if isUtf8Cont b3 then
                  Char.ofNat ((b - 0xF0) * 262144 + (b1 - 0x80) * 4096 +
                      (b2 - 0x80) * 64 + (b3 - 0x80)) :: utf8DecodeReplaceGo fuel rest3
                else replacementChar :: utf8DecodeReplaceGo fuel (b3 :: rest3)
            else replacementChar :: utf8DecodeReplaceGo fuel (b2 :: rest2)
        else replacementChar :: utf8DecodeReplaceGo fuel (b1 :: rest1)
    else replacementChar :: utf8DecodeReplaceGo fuel rest

/-- `bytes.decode("utf-8", errors="replace")`: run the decoder with enough
fuel. -/
def utf8DecodeReplace (bytes : List Nat) : List Char :=
  utf8DecodeReplaceGo (bytes.length + 1) bytes

/-- The two `ValueError`s raised by `_decode_report_text_blob`. -/
inductive DecodeErr where
  | invalidEncoding
  | decodingFailed
  deriving DecidableEq, Repr

/-- `src/tools/utils/helpers.py::_decode_report_text_blob` (identical copy in
`src/tools/_scan_workflow_helpers.py`): trim, test against the Base64
character class, strip whitespace (`re.sub(r"\s+", "", ...)` deletes every
whitespace character), reject a remainder of 1 modulo 4, pad with `=` to a
multiple of 4, then decode Base64 non-strictly and the bytes as UTF-8 with
replacement. -/
def decodeReportTextBlob (blob : List Char) : Except DecodeErr (List Char) :=
  let stripped := pyStrip blob
  if stripped.isEmpty then .ok []
  else if !(base64CharsFullmatch stripped) then .ok stripped
  else
    let normalized := stripped.filter (fun c => !(pyIsSpace c))
    if normalized.isEmpty then .ok []
    else
      let r := normalized.length % 4
      if r = 1 then .error .invalidEncoding
      else
        let padded :=
          if r = 0 then normalized else normalized ++ List.replicate (4 - r) '='
        match b64decodePyNonStrict padded with
        | some bytes => .ok (utf8DecodeReplace bytes)
        | none => .error .decodingFailed

/-! ### Log-string sanitizer (`src/utils/utilities.py`) -/

/-- `_MAX_LOG_STRING_LENGTH`. -/
def MAX_LOG_STRING_LENGTH : Nat := 512

/-- ASCII ESC, the `\x1b` of `_ANSI_ESCAPE_RE`. -/
def escChar : Char := Char.ofNat 27

/-- The `[0-9;?]` class of `_ANSI_ESCAPE_RE`. -/
def isAnsiParam (c : Char) : Bool :=
  ('0' ≤ c && c ≤ '9') || c == ';' || c == '?'

/-- The space-to-slash class of `_ANSI_ESCAPE_RE` (0x20–0x2F). -/
def isAnsiIntermediate (c : Char) : Bool :=
  0x20 ≤ c.toNat && c.toNat ≤ 0x2F

/-- The `[@-~]` class of `_ANSI_ESCAPE_RE` (0x40–0x7E). -/
def isAnsiFinal (c : Char) : Bool :=
  0x40 ≤ c.toNat && c.toNat ≤ 0x7E

/-- `_ANSI_ESCAPE_RE.sub("", input)` with the pattern ESC, `[`, then
`[0-9;?]` repeated, then the space-to-slash class repeated, then one final
byte in `[@-~]`: scan left to right replacing each leftmost
non-overlapping match by nothing.  The three character classes are pairwise
disjoint, so the greedy quantifiers reduce to maximal munch with no
backtracking.  Structurally recursive on a fuel counter; each step consumes
at least one character, so fuel above the input length makes the zero-fuel
case unreachable. -/
def ansiStripGo : Nat → List Char → List Char
  | 0, _ => []
  | _, [] => []
  | fuel + 1, c :: rest =>
    if c = escChar then
      match rest with
      | '[' :: rest2 =>
        match (rest2.dropWhile isAnsiParam).dropWhile isAnsiIntermediate with
        | f :: r =>
          if isAnsiFinal f then ansiStripGo fuel r
          else c :: ansiStripGo fuel rest
        | [] => c :: ansiStripGo fuel rest
      | _ => c :: ansiStripGo fuel rest
    else c :: ansiStripGo fuel rest

/-- `_ANSI_ESCAPE_RE.sub("", input)`: run the scanner with enough fuel. -/
def ansiStrip (l : List Char) : List Char :=
  ansiStripGo (l.length + 1) l

/-- The delimiter characters escaped by `_LOG_SANITIZE_MAP`. -/
def LOG_DELIMS : List Char := ['"', '\'', '|', ',', ';', '=', ':']

/-- Is this one of the escaped delimiter characters? -/
def isLogDelim (c : Char) : Bool := LOG_DELIMS.contains c

/-- `str.translate(_LOG_SANITIZE_TRANSLATION)` acting on one character: the
map sends `\n`, `\r`, `\t` to a space (overriding the control-range default),
deletes the remaining control characters 0–31 and DEL (127), prefixes each
delimiter with a backslash, and leaves everything else unchanged. -/
def translateChar (c : Char) : List Char :=
  if c = '\n' ∨ c = '\r' ∨ c = '\t' then [' ']
  else if c.toNat < 32 ∨ c.toNat = 127 then []
  else if isLogDelim c then ['\\', c]
  else [c]

/-- `src/utils/utilities.py::_sanitize_string` before the final truncation:
strip ANSI escapes, apply the translation table, then `str.strip()`. -/
def sanitizePreTruncate (input : List Char) : List Char :=
  pyStrip ((ansiStrip input).flatMap translateChar)

/-- `src/utils/utilities.py::_sanitize_string` on a string input. -/
def sanitizeString (input : List Char) : List Char :=
  let sanitized := sanitizePreTruncate input
  if MAX_LOG_STRING_LENGTH < sanitized.length then
    sanitized.take (MAX_LOG_STRING_LENGTH - 3) ++ ['.', '.', '.']
  else sanitized

/-- Checker for "every delimiter occurrence is immediately preceded by a
backslash", tracking the previous character. -/
def delimsEscapedFrom : Option Char → List Char → Bool
  | _, [] => true
  | prev, c :: rest =>
    (if isLogDelim c then prev == some '\\' else true) &&
      delimsEscapedFrom (some c) rest

/-- Every delimiter occurrence in the list is immediately preceded by a
backslash (in particular none occurs first). -/
def delimsEscaped (l : List Char) : Bool := delimsEscapedFrom none l

/-! ## Theorems -/

/-- C1: evaluating `_add_rows_to_filter_string` at the failing input.  The
claim states that a caller-supplied filter string that already contains an
explicit `rows=` clause (e.g. `"rows=5"`) is dispatched unchanged.  The code's
detection pattern `r"(?:^|\\s)rows\\s*="` contains doubled backslashes inside
a raw string, so it looks for a literal backslash character: `"rows=5"` is not
detected and a second `rows=-1` clause is appended, contradicting the code's
own docstring ("Add `rows=-1` ... when ... not already specified") and inline
comment ("Respect explicit pagination in the caller-provided filter").  The
no-filter and no-`rows=`-clause parts of the claim do hold. -/
theorem c1_rows_clause_not_detected :
    addRowsToFilterString true (some "rows=5") = some "rows=5 rows=-1" ∧
    rowsSearch ("rows=5".toList) = false ∧
    rowsSearch (" rows=5".toList) = false ∧
    addRowsToFilterString true none = some "rows=-1" ∧
    addRowsToFilterString true (some "name~web") = some "name~web rows=-1" := by
  decide

/-- C7: with the fixed 6000-character preview limit in
`_build_txt_report_output` (preview branch, `include_full_text = False`):
a report text of 6001 or more characters yields a preview of exactly 6000
characters ending in `"..."` and `report_text_truncated = true`; a text of at
most 6000 characters is returned unmodified with
`report_text_truncated = false`. -/
theorem c7_preview_truncation (report : Report) (text : List Char) :
    (6001 ≤ text.length →
      ∃ preview,
        buildTxtReportOutput report (some text) false 6000 =
          some { report := summarizeReportMetadata (some report),
                 report_text := none,
                 report_text_preview := some preview,
                 report_text_truncated := some true } ∧
        preview.length = 6000 ∧ preview.drop 5997 = ['.', '.', '.']) ∧
    (text.length ≤ 6000 →
      buildTxtReportOutput report (some text) false 6000 =
        some { report := summarizeReportMetadata (some report),
               report_text := none,
               report_text_preview := some text,
               report_text_truncated := some false }) := by
  have hslice : pySliceTo text ((6000 : Int) - 3) = text.take 5997 := by
    have h0 : ¬ ((6000 : Int) - 3 < 0) := by norm_num
    have h1 : ((6000 : Int) - 3).toNat = 5997 := by decide
    unfold pySliceTo
    rw [if_neg h0, h1]
  constructor
  · intro h
    have hc2 : (6000 : Int) < (text.length : Int) := by
      have : (6000 : ℕ) < text.length := by omega
      exact_mod_cast this
    have hc1 : ¬ ((6000 : Int) ≤ 0 ∨ (text.length : Int) ≤ 6000) := by
      push_neg
      exact ⟨by norm_num, hc2⟩
    have htake : (text.take 5997).length = 5997 := by
      rw [List.length_take]
      omega
    refine ⟨text.take 5997 ++ ['.', '.', '.'], ?_, ?_, ?_⟩
    · simp only [buildTxtReportOutput, truncateText]
      rw [if_neg hc1, hslice]
      simp [hc2]
    · rw [List.length_append, htake]
      rfl
    · rw [List.drop_left' htake]
  · intro h
    have hc1 : ((6000 : Int) ≤ 0 ∨ (text.length : Int) ≤ 6000) :=
      Or.inr (by exact_mod_cast h)
    have hc2 : ¬ ((6000 : Int) < (text.length : Int)) :=
      not_lt.mpr (by exact_mod_cast h)
    simp only [buildTxtReportOutput, truncateText]
    rw [if_pos hc1]
    simp [hc2]

/-- C7 witness: the theorem applied at a concrete 6001-character text and at a
concrete short text. -/
theorem c7_preview_truncation_witness :
    (∃ preview,
      buildTxtReportOutput ⟨none, []⟩ (some (List.replicate 6001 'a')) false 6000 =
        some { report := summarizeReportMetadata (some ⟨none, []⟩),
               report_text := none,
               report_text_preview := some preview,
               report_text_truncated := some true } ∧
      preview.length = 6000 ∧ preview.drop 5997 = ['.', '.', '.']) ∧
    buildTxtReportOutput ⟨none, []⟩ (some ['h', 'i']) false 6000 =
      some { report := summarizeReportMetadata (some ⟨none, []⟩),
             report_text := none,
             report_text_preview := some ['h', 'i'],
             report_text_truncated := some false } :=
  ⟨(c7_preview_truncation ⟨none, []⟩ (List.replicate 6001 'a')).1
      (by rw [List.length_replicate]),
   (c7_preview_truncation ⟨none, []⟩ ['h', 'i']).2 (by norm_num)⟩

/-- C8: `_default_target_name` on a non-empty host list returns the single
host's literal address for one host; for two or three hosts, the hosts sorted
(a sorted permutation, in Python's ascending code-point string order) joined
by `", "`; and `"<N> hosts"` for more than three hosts. -/
theorem c8_default_target_name (hosts : List String) :
    (∀ h, hosts = [h] → defaultTargetName hosts = h) ∧
    (hosts.length = 2 ∨ hosts.length = 3 →
      ∃ s, s.Perm hosts ∧ s.Sorted pyStrLe ∧
        defaultTargetName hosts = ", ".intercalate s) ∧
    (3 < hosts.length → defaultTargetName hosts = toString hosts.length ++ " hosts") := by
  refine ⟨?_, ?_, ?_⟩
  · rintro h rfl
    simp [defaultTargetName]
  · intro hlen
    refine ⟨hosts.insertionSort pyStrLe, List.perm_insertionSort pyStrLe hosts,
      List.sorted_insertionSort pyStrLe hosts, ?_⟩
    have h1 : hosts.length ≠ 1 := by omega
    have h3 : hosts.length ≤ 3 := by omega
    simp [defaultTargetName, h1, h3]
  · intro hlen
    have h1 : hosts.length ≠ 1 := by omega
    have h3 : ¬ hosts.length ≤ 3 := by omega
    simp [defaultTargetName, h1, h3]

/-- C8 witness: the theorem applied at the spec's concrete examples. -/
theorem c8_default_target_name_witness :
    defaultTargetName ["10.0.0.1"] = "10.0.0.1" ∧
    defaultTargetName ["b.com", "a.com"] = "a.com, b.com" ∧
    defaultTargetName ["h1", "h2", "h3", "h4"] = "4 hosts" :=
  ⟨(c8_default_target_name ["10.0.0.1"]).1 "10.0.0.1" rfl,
   by decide,
   (c8_default_target_name ["h1", "h2", "h3", "h4"]).2.2 (by decide)⟩

/-- C5 counterexample: calling `setup_logging` twice does not leave the root
logger with the same handler configuration as calling it once — the second
call appends a second stream handler instead of replacing the first. -/
theorem c5_setup_logging_stacks_counterexample :
    ((setupLogging none "INFO" (setupLogging none "INFO" initialRootLogger)).handlers ==
      (setupLogging none "INFO" initialRootLogger).handlers) = false ∧
    (setupLogging none "INFO" initialRootLogger).handlers.length = 1 ∧
    (setupLogging none "INFO" (setupLogging none "INFO" initialRootLogger)).handlers.length = 2 := by
  decide

/-- C5 amended: `setup_logging` is not idempotent — each call appends exactly
one fresh stream handler to the root logger (never removing or replacing
existing ones), so repeated calls stack handlers; only the root level is
overwritten. -/
theorem c5_setup_logging_appends_handler
    (level : Option (String ⊕ Int)) (cfg : String) (st : RootLoggerState)
    (h : handlersWellFormed st) :
    (setupLogging level cfg st).handlers =
      st.handlers ++ [⟨st.nextObjId, "stderr", DEFAULT_FORMAT, DEFAULT_DATEFMT⟩] ∧
    (setupLogging level cfg st).handlers.length = st.handlers.length + 1 ∧
    handlersWellFormed (setupLogging level cfg st) := by
  have hany : (st.handlers.any fun hh => hh.objId == st.nextObjId) = false := by
    rw [List.any_eq_false]
    intro x hx
    have := h x hx
    simp only [beq_iff_eq]
    omega
  have he : (setupLogging level cfg st).handlers =
      st.handlers ++ [⟨st.nextObjId, "stderr", DEFAULT_FORMAT, DEFAULT_DATEFMT⟩] := by
    simp [setupLogging, hany]
  refine ⟨he, by rw [he]; simp, ?_⟩
  intro x hx
  rw [he] at hx
  have hn : (setupLogging level cfg st).nextObjId = st.nextObjId + 1 := rfl
  rw [hn]
  rcases List.mem_append.mp hx with h1 | h1
  · exact Nat.lt_succ_of_lt (h x h1)
  · rw [List.mem_singleton.mp h1]
    exact Nat.lt_succ_self _

/-- C5 witness: the amended theorem applied at the pristine root logger. -/
theorem c5_setup_logging_appends_handler_witness :
    (setupLogging none "INFO" initialRootLogger).handlers.length =
      initialRootLogger.handlers.length + 1 :=
  (c5_setup_logging_appends_handler none "INFO" initialRootLogger
    (fun x hx => absurd hx (List.not_mem_nil x))).2.1

/-- C3 counterexample: when `GreenboneMCP.init` fails with an exception that
is not a `GvmResponseError` (here: any other error raised while
authenticating), the middleware still surfaces a structured internal error,
but the stored client reference is NOT reset to `None` — it keeps the
partially constructed client, contradicting the claim's "for every failure". -/
theorem c3_client_not_reset_counterexample :
    greenboneInit initialServerState (ConfigOutcome.ok "admin" "pw")
        (AuthOutcome.otherError "boom") =
      (some (InitException.otherException "boom"),
       { gvmClient := some ⟨"admin", "pw"⟩, gvmReady := false,
         toolsRegistered := false }) ∧
    onInitializeError (InitException.otherException "boom") =
      (INTERNAL_ERROR, "Failed to initialize Greenbone backend: boom") ∧
    (greenboneInit initialServerState (ConfigOutcome.ok "admin" "pw")
        (AuthOutcome.otherError "boom")).2.gvmClient.isSome = true := by
  decide

/-- C3 amended: on a configuration validation failure the client reference is
left unchanged (it was never assigned in this attempt); on a
`GvmResponseError` during authentication it is reset to `None`; on any other
exception during authentication it remains set to the newly constructed
client.  In every failure case the ready flag stays `false`, so a subsequent
request retries initialization from scratch. -/
theorem c3_init_client_reset_amended (st : GreenboneMCPState)
    (config : ConfigOutcome) (auth : AuthOutcome) (h : st.gvmReady = false) :
    (∀ errs, config = ConfigOutcome.validationError errs →
      (greenboneInit st config auth).2.gvmClient = st.gvmClient) ∧
    (∀ u p m, config = ConfigOutcome.ok u p →
      auth = AuthOutcome.gvmResponseError m →
      (greenboneInit st config auth).2.gvmClient = none) ∧
    (∀ u p m, config = ConfigOutcome.ok u p → auth = AuthOutcome.otherError m →
      (greenboneInit st config auth).2.gvmClient = some ⟨u, p⟩) ∧
    ((greenboneInit st config auth).1.isSome →
      (greenboneInit st config auth).2.gvmReady = false) := by
  cases config <;> cases auth <;> simp [greenboneInit, h]

/-- C3 witness: the amended theorem applied at concrete outcomes (an
authentication rejection reported as a `GvmResponseError`). -/
theorem c3_init_client_reset_amended_witness :
    (greenboneInit initialServerState (ConfigOutcome.ok "u" "p")
        (AuthOutcome.gvmResponseError "Authentication failed")).2.gvmClient = none :=
  (c3_init_client_reset_amended initialServerState _ _ rfl).2.1
    "u" "p" "Authentication failed" rfl rfl

/-- C10 (implicit): `_default_target_name` applied to an empty host list falls
into the two-to-three-host branch and joins an empty sorted list, yielding
`""`; so `start_scan` invoked with an empty hosts list and no explicit target
name builds `create_target` keyword arguments whose `name` is `""`. -/
theorem c10_empty_hosts_empty_target_name :
    defaultTargetName [] = "" ∧
    (startScanCreateTargetKwargs [] none none none).name = "" := by
  decide

/-- C2: evaluating `get_target` and `scan_status` at a response whose target
(respectively task) list is empty.  The claim says both fail with a
NotFound-flavored tool error; in fact both index element zero of the empty
list and the resulting `IndexError` escapes the handler (it is not a
`GvmError`, the only exception the tools convert to `ToolError`), so neither
produces a tool error at all. -/
theorem c2_empty_list_unguarded_index :
    getTargetTool (.ok ⟨[]⟩) = ToolOutcome.indexError ∧
    scanStatusTool (.ok ⟨[]⟩) = ToolOutcome.indexError ∧
    isToolErrorOutcome (getTargetTool (.ok ⟨[]⟩)) = false ∧
    isToolErrorOutcome (scanStatusTool (.ok ⟨[]⟩)) = false :=
  ⟨rfl, rfl, rfl, rfl⟩

/-- C4: for every input to `_decode_report_text_blob`: if the trimmed text
contains a character outside `[A-Za-z0-9+/=\s]`, the trimmed text is returned
unchanged; otherwise if the whitespace-stripped length is 1 mod 4, decoding
fails with the InvalidEncoding error; if it is 2 or 3 mod 4, `=` characters
are appended to reach a multiple of 4 and the result is the non-strict Base64
decode of that padded text, UTF-8-decoded with replacement. -/
theorem c4_decode_report_text_blob (blob : List Char) :
    ((pyStrip blob).any (fun c => !(isBase64AllowedChar c)) = true →
      decodeReportTextBlob blob = .ok (pyStrip blob)) ∧
    (base64CharsFullmatch (pyStrip blob) = true →
      ((pyStrip blob).filter (fun c => !(pyIsSpace c))).length % 4 = 1 →
      decodeReportTextBlob blob = .error DecodeErr.invalidEncoding) ∧
    (∀ r, base64CharsFullmatch (pyStrip blob) = true →
      ((pyStrip blob).filter (fun c => !(pyIsSpace c))).length % 4 = r →
      (r = 2 ∨ r = 3) →
      (decodeReportTextBlob blob =
        (match b64decodePyNonStrict
            ((pyStrip blob).filter (fun c => !(pyIsSpace c)) ++
              List.replicate (4 - r) '=') with
         | some bytes => .ok (utf8DecodeReplace bytes)
         | none => .error DecodeErr.decodingFailed) ∧
       ((pyStrip blob).filter (fun c => !(pyIsSpace c)) ++
          List.replicate (4 - r) '=').length % 4 = 0)) := by
  refine ⟨?_, ?_, ?_⟩
  · intro hany
    rcases List.any_eq_true.mp hany with ⟨c, hc, hcbad⟩
    have hne : (pyStrip blob).isEmpty = false :=
      List.isEmpty_eq_false.mpr (List.ne_nil_of_mem hc)
    have hfm : base64CharsFullmatch (pyStrip blob) = false := by
      rw [base64CharsFullmatch, Bool.and_eq_false_iff]
      right
      rw [List.all_eq_false]
      exact ⟨c, hc, by simpa using hcbad⟩
    simp [decodeReportTextBlob, hne, hfm]
  · intro hfm hr
    have hne : (pyStrip blob).isEmpty = false := by
      cases h1 : (pyStrip blob).isEmpty
      · rfl
      · exfalso
        rw [base64CharsFullmatch, h1] at hfm
        simp at hfm
    have hnne : ((pyStrip blob).filter (fun c => !(pyIsSpace c))).isEmpty = false := by
      rw [List.isEmpty_eq_false]
      intro hc
      rw [hc] at hr
      simp at hr
    simp [decodeReportTextBlob, hne, hfm, hnne, hr]
  · intro r hfm hr hr23
    have hne : (pyStrip blob).isEmpty = false := by
      cases h1 : (pyStrip blob).isEmpty
      · rfl
      · exfalso
        rw [base64CharsFullmatch, h1] at hfm
        simp at hfm
    have hnne : ((pyStrip blob).filter (fun c => !(pyIsSpace c))).isEmpty = false := by
      rw [List.isEmpty_eq_false]
      intro hc
      rw [hc] at hr
      simp at hr
      rcases hr23 with h | h <;> omega
    refine ⟨?_, ?_⟩
    · rcases hr23 with rfl | rfl <;>
        simp [decodeReportTextBlob, hne, hfm, hnne, hr]
    · rw [List.length_append, List.length_replicate]
      rcases hr23 with rfl | rfl <;> omega

/-- C4 witness: the theorem applied at concrete inputs for each branch — a
plain text containing `:` (not Base64), a five-character Base64-looking text
(remainder 1), and `"aGk"` (remainder 3, padded to `"aGk="`, decoding to
`"hi"`). -/
theorem c4_decode_report_text_blob_witness :
    decodeReportTextBlob ("hi: there".toList) = .ok ("hi: there".toList) ∧
    decodeReportTextBlob ("aaaaa".toList) = .error DecodeErr.invalidEncoding ∧
    decodeReportTextBlob ("aGk".toList) = .ok ("hi".toList) := by
  refine ⟨?_, ?_, ?_⟩
  · have h := (c4_decode_report_text_blob ("hi: there".toList)).1 (by decide)
    rw [h]
    rfl
  · exact (c4_decode_report_text_blob ("aaaaa".toList)).2.1 (by decide) (by decide)
  · have h := ((c4_decode_report_text_blob ("aGk".toList)).2.2 3 (by decide)
      (by decide) (Or.inr rfl)).1
    rw [h]
    rfl

/-- Splitting a true Boolean conjunction. -/
theorem bool_and_true_split {a b : Bool} (h : (a && b) = true) :
    a = true ∧ b = true := by
  cases a
  · simp at h
  · cases b
    · simp at h
    · exact ⟨rfl, rfl⟩

/-- The head of a `dropWhile p` result never satisfies `p`. -/
theorem dropWhile_head_all (p : Char → Bool) (l : List Char) :
    ((l.dropWhile p).head?.all fun c => !(p c)) = true := by
  induction l with
  | nil => rfl
  | cons c rest ih =>
    rw [List.dropWhile_cons]
    by_cases hs : p c = true
    · rw [if_pos hs]
      exact ih
    · rw [if_neg hs]
      simp [hs]

/-- The head of a stripped string is not whitespace. -/
theorem pyStrip_head_ok (l : List Char) :
    ((pyStrip l).head?.all fun c => !(pyIsSpace c)) = true := by
  rw [pyStrip]
  obtain ⟨t, ht⟩ := List.rdropWhile_prefix pyIsSpace (l.dropWhile pyIsSpace)
  cases hpre : (l.dropWhile pyIsSpace).rdropWhile pyIsSpace with
  | nil => rfl
  | cons a s =>
    rw [hpre] at ht
    have h2 := dropWhile_head_all pyIsSpace l
    rw [← ht] at h2
    simpa using h2

/-- The last character of a stripped string is not whitespace. -/
theorem pyStrip_last_ok (l : List Char) :
    ((pyStrip l).getLast?.all fun c => !(pyIsSpace c)) = true := by
  rw [pyStrip, List.rdropWhile, List.getLast?_reverse]
  exact dropWhile_head_all pyIsSpace _

/-- Every character emitted by the translation table is neither an ASCII
control character nor DEL. -/
theorem translateChar_goodChar (c c' : Char) (h : c' ∈ translateChar c) :
    32 ≤ c'.toNat ∧ c'.toNat ≠ 127 := by
  by_cases h1 : c = '\n' ∨ c = '\r' ∨ c = '\t'
  · rw [translateChar, if_pos h1, List.mem_singleton] at h
    subst h
    decide
  · by_cases h2 : c.toNat < 32 ∨ c.toNat = 127
    · rw [translateChar, if_neg h1, if_pos h2] at h
      cases h
    · by_cases h3 : isLogDelim c = true
      · rw [translateChar, if_neg h1, if_neg h2, if_pos h3] at h
        rcases List.mem_cons.mp h with rfl | h
        · decide
        · rw [List.mem_singleton] at h
          subst h
          push_neg at h2
          omega
      · rw [translateChar, if_neg h1, if_neg h2, if_neg h3,
          List.mem_singleton] at h
        subst h
        push_neg at h2
        omega

/-- Every character of a translated string is neither a control character nor
DEL. -/
theorem flatMap_goodChar (l : List Char) (c' : Char)
    (h : c' ∈ l.flatMap translateChar) : 32 ≤ c'.toNat ∧ c'.toNat ≠ 127 := by
  rcases List.mem_flatMap.mp h with ⟨a, _, ha⟩
  exact translateChar_goodChar a c' ha

/-- Stripping surrounding whitespace keeps a subset of the characters. -/
theorem pyStrip_subset (l : List Char) : pyStrip l ⊆ l := by
  intro c hc
  rw [pyStrip] at hc
  exact (List.dropWhile_sublist pyIsSpace).subset
    ((List.rdropWhile_prefix pyIsSpace (l.dropWhile pyIsSpace)).sublist.subset hc)

/-- If the first character is guarded by a non-backslash previous character,
the previous character is irrelevant. -/
theorem delims_prev_switch (l : List Char) (p q : Option Char)
    (hp : p ≠ some '\\') (h : delimsEscapedFrom p l = true) :
    delimsEscapedFrom q l = true := by
  cases l with
  | nil => rfl
  | cons c rest =>
    by_cases hd : isLogDelim c = true
    · rw [delimsEscapedFrom, if_pos hd] at h
      rcases bool_and_true_split h with ⟨h1, _⟩
      exact absurd (by simpa using h1) hp
    · rw [delimsEscapedFrom, if_neg hd, Bool.true_and] at h
      rw [delimsEscapedFrom, if_neg hd, Bool.true_and]
      exact h

/-- The translation stage always produces an escaped-delimiters string,
whatever precedes it. -/
theorem delims_translate (l : List Char) :
    ∀ p, delimsEscapedFrom p (l.flatMap translateChar) = true := by
  induction l with
  | nil => intro p; rfl
  | cons a l ih =>
    intro p
    rw [List.flatMap_cons]
    by_cases h1 : a = '\n' ∨ a = '\r' ∨ a = '\t'
    · rw [translateChar, if_pos h1, List.singleton_append, delimsEscapedFrom,
        if_neg (by decide : ¬ isLogDelim ' ' = true), Bool.true_and]
      exact ih _
    · by_cases h2 : a.toNat < 32 ∨ a.toNat = 127
      · rw [translateChar, if_neg h1, if_pos h2, List.nil_append]
        exact ih p
      · by_cases h3 : isLogDelim a = true
        · rw [translateChar, if_neg h1, if_neg h2, if_pos h3,
            List.cons_append, List.singleton_append, delimsEscapedFrom,
            if_neg (by decide : ¬ isLogDelim '\\' = true), Bool.true_and,
            delimsEscapedFrom, if_pos h3,
            (by rfl : (some '\\' == some '\\') = true), Bool.true_and]
          exact ih _
        · rw [translateChar, if_neg h1, if_neg h2, if_neg h3,
            List.singleton_append, delimsEscapedFrom, if_neg h3, Bool.true_and]
          exact ih _

/-- Dropping leading whitespace preserves the escaped-delimiters property. -/
theorem delims_dropWhile_space (l : List Char)
    (h : delimsEscapedFrom none l = true) :
    delimsEscapedFrom none (l.dropWhile pyIsSpace) = true := by
  induction l with
  | nil => rfl
  | cons c rest ih =>
    rw [List.dropWhile_cons]
    by_cases hs : pyIsSpace c = true
    · rw [if_pos hs]
      apply ih
      rw [delimsEscapedFrom] at h
      rcases bool_and_true_split h with ⟨_, htail⟩
      refine delims_prev_switch rest (some c) none ?_ htail
      intro hc
      rw [Option.some.injEq] at hc
      rw [hc] at hs
      exact absurd hs (by decide)
    · rw [if_neg hs]
      exact h

/-- A prefix (here: cutting off a suffix) preserves the escaped-delimiters
property. -/
theorem delims_append_left (l₁ l₂ : List Char) :
    ∀ p, delimsEscapedFrom p (l₁ ++ l₂) = true →
      delimsEscapedFrom p l₁ = true := by
  induction l₁ with
  | nil =>
    intro p _
    rfl
  | cons c rest ih =>
    intro p h
    rw [List.cons_append, delimsEscapedFrom] at h
    rcases bool_and_true_split h with ⟨h1, h2⟩
    rw [delimsEscapedFrom, h1, Bool.true_and]
    exact ih _ h2

/-- Escaped delimiters restricted to a prefix. -/
theorem delims_prefix (l' l : List Char) (hp : l' <+: l) (p : Option Char)
    (h : delimsEscapedFrom p l = true) : delimsEscapedFrom p l' = true := by
  obtain ⟨t, rfl⟩ := hp
  exact delims_append_left _ _ _ h

/-- A delimiter-free string trivially has all delimiters escaped. -/
theorem delims_no_delims (l : List Char)
    (h : ∀ c ∈ l, isLogDelim c = false) :
    ∀ p, delimsEscapedFrom p l = true := by
  induction l with
  | nil => intro p; rfl
  | cons c rest ih =>
    intro p
    rw [delimsEscapedFrom,
      if_neg (by simp [h c (List.mem_cons_self c rest)]), Bool.true_and]
    exact ih (fun c' hc' => h c' (List.mem_cons_of_mem _ hc')) _

/-- Appending a delimiter-free suffix preserves the escaped-delimiters
property. -/
theorem delims_append_nondelim (l l₂ : List Char)
    (h2 : ∀ c ∈ l₂, isLogDelim c = false) :
    ∀ p, delimsEscapedFrom p l = true →
      delimsEscapedFrom p (l ++ l₂) = true := by
  induction l with
  | nil =>
    intro p _
    exact delims_no_delims l₂ h2 p
  | cons c rest ih =>
    intro p h
    rw [delimsEscapedFrom] at h
    rcases bool_and_true_split h with ⟨ha, hb⟩
    rw [List.cons_append, delimsEscapedFrom, ha, Bool.true_and]
    exact ih _ hb

/-- The sanitizer's pre-truncation output has every delimiter escaped. -/
theorem delims_sanitize_pre (input : List Char) :
    delimsEscaped (sanitizePreTruncate input) = true := by
  rw [delimsEscaped, sanitizePreTruncate, pyStrip]
  have h1 := delims_dropWhile_space _ (delims_translate (ansiStrip input) none)
  obtain ⟨t, ht⟩ := List.rdropWhile_prefix pyIsSpace
    (((ansiStrip input).flatMap translateChar).dropWhile pyIsSpace)
  apply delims_append_left _ t none
  rw [ht]
  exact h1

/-- Head of a nonempty truncation with a suffix appended. -/
theorem head_take_append (l l₂ : List Char) (n : Nat) (hn : 0 < n)
    (hl : l ≠ []) : (l.take n ++ l₂).head? = l.head? := by
  cases l with
  | nil => exact absurd rfl hl
  | cons a t =>
    cases n with
    | zero => omega
    | succ m => rfl

/-- In an association list with duplicate-free keys, a key determines its
value. -/
theorem assoc_nodup_unique {α β : Type} (l : List (α × β))
    (h : (l.map Prod.fst).Nodup) {k : α} {x y : β}
    (hx : (k, x) ∈ l) (hy : (k, y) ∈ l) : x = y := by
  induction l with
  | nil => cases hx
  | cons kv rest ih =>
    rw [List.map_cons, List.nodup_cons] at h
    rcases List.mem_cons.mp hx with hx1 | hx1 <;>
      rcases List.mem_cons.mp hy with hy1 | hy1
    · exact congrArg Prod.snd (hx1.trans hy1.symm)
    · exact absurd (List.mem_map.mpr ⟨(k, y), hy1, by rw [← hx1]⟩) h.1
    · exact absurd (List.mem_map.mpr ⟨(k, x), hx1, by rw [← hy1]⟩) h.1
    · exact ih h.2 hx1 hy1

/-- With duplicate-free field names, `find?` over the fields at a member's
name returns that member. -/
theorem factory_find_field (fields : List FieldSpec) (f : FieldSpec)
    (hnd : (fields.map FieldSpec.name).Nodup) (hf : f ∈ fields) :
    fields.find? (fun g => g.name == f.name) = some f := by
  induction fields with
  | nil => cases hf
  | cons g rest ih =>
    rw [List.map_cons, List.nodup_cons] at hnd
    rcases List.mem_cons.mp hf with rfl | hf1
    · exact List.find?_cons_of_pos _ (by simp)
    · have hne : g.name ≠ f.name := by
        intro hc
        exact hnd.1 (List.mem_map.mpr ⟨f, hf1, hc.symm⟩)
      rw [List.find?_cons_of_neg _ (by simp [hne])]
      exact ih hnd.2 hf1

/-- The fill-missing loop only ever appends entries, so membership is
preserved. -/
theorem factoryFillMissing_mem_preserved (fields : List FieldSpec)
    (acc : List (String × PyValue)) (kv : String × PyValue) (h : kv ∈ acc) :
    kv ∈ factoryFillMissing fields acc := by
  induction fields generalizing acc with
  | nil => exact h
  | cons f rest ih =>
    rw [factoryFillMissing]
    split
    · exact ih _ (List.mem_append_left _ h)
    · exact ih _ h

/-- Every entry of the fill-missing loop's output either was already present
or carries the value `None`. -/
theorem factoryFillMissing_val (fields : List FieldSpec)
    (acc : List (String × PyValue)) (kv : String × PyValue)
    (h : kv ∈ factoryFillMissing fields acc) :
    kv ∈ acc ∨ kv.2 = PyValue.noneVal := by
  induction fields generalizing acc with
  | nil => exact Or.inl h
  | cons f rest ih =>
    rw [factoryFillMissing] at h
    rcases ih _ h with h1 | h1
    · revert h1
      split
      · intro h1
        rcases List.mem_append.mp h1 with h2 | h2
        · exact Or.inl h2
        · right
          rw [List.mem_singleton.mp h2]
      · exact Or.inl
    · exact Or.inr h1

/-- The fill-missing loop does fill a required init field that has no value
yet (field names duplicate-free). -/
theorem factoryFillMissing_fills (fields : List FieldSpec) :
    ∀ (acc : List (String × PyValue)) (f : FieldSpec), f ∈ fields →
    (fields.map FieldSpec.name).Nodup → f.init = true →
    requiredField f = true → (∀ v, (f.name, v) ∉ acc) →
    (f.name, PyValue.noneVal) ∈ factoryFillMissing fields acc := by
  induction fields with
  | nil =>
    intro acc f hf _ _ _ _
    cases hf
  | cons g rest ih =>
    intro acc f hf hnd hinit hreq hnot
    rw [List.map_cons, List.nodup_cons] at hnd
    rw [factoryFillMissing]
    rcases List.mem_cons.mp hf with rfl | hf1
    · have hany : (acc.any fun kv => kv.1 == f.name) = false := by
        rw [List.any_eq_false]
        rintro ⟨k, v⟩ hkv
        simp only [beq_iff_eq]
        intro hc
        exact hnot v (hc ▸ hkv)
      rw [if_pos (by simp [hinit, hreq, hany])]
      exact factoryFillMissing_mem_preserved _ _ _
        (List.mem_append_right _ (List.mem_singleton.mpr rfl))
    · have hne : g.name ≠ f.name := by
        intro hc
        exact hnd.1 (List.mem_map.mpr ⟨f, hf1, hc.symm⟩)
      apply ih _ f hf1 hnd.2 hinit hreq
      intro v hv
      revert hv
      split
      · intro hv
        rcases List.mem_append.mp hv with h2 | h2
        · exact hnot v h2
        · exact hne (congrArg Prod.fst (List.mem_singleton.mp h2)).symm
      · exact hnot v

/-- C6: for every record built by `_xsdata_class_factory` from a dataclass
(duplicate-free field names, as Python dataclasses guarantee) and an incoming
`params` dict (duplicate-free keys, as Python dicts guarantee): (a) a field
whose declared type allows `None` and whose incoming value is the empty
string ends up bound to `None`; (b) an init field with neither default nor
default factory that received no value ends up bound to `None` instead of the
construction raising. -/
theorem c6_xsdata_class_factory (cls : DataclassSpec)
    (params : List (String × PyValue))
    (hparams : (params.map Prod.fst).Nodup)
    (hfields : (cls.fields.map FieldSpec.name).Nodup) :
    (∀ f ∈ cls.fields, allowsNone f.ftype = true →
      (f.name, PyValue.str "") ∈ params →
      ((f.name, PyValue.noneVal) ∈ xsdataClassFactory cls params ∧
       ∀ v, (f.name, v) ∈ xsdataClassFactory cls params → v = PyValue.noneVal)) ∧
    (∀ f ∈ cls.fields, f.init = true → requiredField f = true →
      (∀ v, (f.name, v) ∉ params) →
      ((f.name, PyValue.noneVal) ∈ xsdataClassFactory cls params ∧
       ∀ v, (f.name, v) ∈ xsdataClassFactory cls params → v = PyValue.noneVal)) := by
  constructor
  · intro f hf hnone hmem
    have htype : fieldTypeGet cls f.name = f.ftype := by
      rw [fieldTypeGet, factory_find_field cls.fields f hfields hf]
    have hclean : (f.name, PyValue.noneVal) ∈ factoryClean cls params := by
      rw [factoryClean]
      exact List.mem_map.mpr ⟨(f.name, PyValue.str ""), hmem,
        by simp [pyEqEmptyStr, htype, hnone]⟩
    constructor
    · exact factoryFillMissing_mem_preserved _ _ _ hclean
    · intro v hv
      rcases factoryFillMissing_val _ _ _ hv with h1 | h1
      · rw [factoryClean] at h1
        rcases List.mem_map.mp h1 with ⟨⟨k0, v0⟩, hkv0, heq⟩
        have hk0 : k0 = f.name := by
          revert heq
          split <;> exact fun heq => congrArg Prod.fst heq
        rw [hk0] at hkv0
        have hv0 : v0 = PyValue.str "" :=
          assoc_nodup_unique params hparams hkv0 hmem
        rw [hk0, hv0] at heq
        rw [if_pos (by simp [pyEqEmptyStr, htype, hnone])] at heq
        exact (congrArg Prod.snd heq).symm
      · exact h1
  · intro f hf hinit hreq hnot
    have hnotc : ∀ v, (f.name, v) ∉ factoryClean cls params := by
      intro v hv
      rw [factoryClean] at hv
      rcases List.mem_map.mp hv with ⟨⟨k0, v0⟩, hkv0, heq⟩
      have hk0 : k0 = f.name := by
        revert heq
        split <;> exact fun heq => congrArg Prod.fst heq
      exact hnot v0 (hk0 ▸ hkv0)
    constructor
    · exact factoryFillMissing_fills _ _ f hf hfields hinit hreq hnotc
    · intro v hv
      rcases factoryFillMissing_val _ _ _ hv with h1 | h1
      · exact absurd h1 (hnotc v)
      · exact h1

/-- C6 witness: the theorem applied at a concrete two-field dataclass (an
optional `name : Optional[str]` receiving `""`, and a required init field
`id` receiving nothing). -/
theorem c6_xsdata_class_factory_witness :
    (("name", PyValue.noneVal) ∈
      xsdataClassFactory
        ⟨[⟨"name", .union [.simple "str" [], .noneType], true, false, false⟩,
          ⟨"id", .simple "str" [], true, false, false⟩]⟩
        [("name", PyValue.str "")]) ∧
    (("id", PyValue.noneVal) ∈
      xsdataClassFactory
        ⟨[⟨"name", .union [.simple "str" [], .noneType], true, false, false⟩,
          ⟨"id", .simple "str" [], true, false, false⟩]⟩
        [("name", PyValue.str "")]) :=
  ⟨((c6_xsdata_class_factory _ _ (by simp) (by simp)).1
      ⟨"name", .union [.simple "str" [], .noneType], true, false, false⟩
      (by simp) (by rfl) (by simp)).1,
   ((c6_xsdata_class_factory _ _ (by simp) (by simp)).2
      ⟨"id", .simple "str" [], true, false, false⟩
      (by simp) rfl rfl (by simp)).1⟩

/-- C9: for every input string, `_sanitize_string` returns a string of at
most 512 characters (exactly 512, ending in `"..."`, when truncation occurs,
and the input unchanged past the pre-truncation pipeline otherwise) that
contains no ASCII control characters 0–31 (so no ESC, hence no ANSI escape
sequence, and no newline/carriage-return/tab — each became a single space) and
no DEL (127), in which every delimiter occurrence (double-quote, single-quote,
pipe, comma, semicolon, equals, colon) is immediately preceded by a backslash,
and whose surrounding whitespace is trimmed (first and last character, if
any, are not whitespace). -/
theorem c9_sanitize_string (input : List Char) :
    (sanitizeString input).length ≤ 512 ∧
    (∀ c ∈ sanitizeString input, 32 ≤ c.toNat ∧ c.toNat ≠ 127) ∧
    delimsEscaped (sanitizeString input) = true ∧
    ((sanitizeString input).head?.all fun c => !(pyIsSpace c)) = true ∧
    ((sanitizeString input).getLast?.all fun c => !(pyIsSpace c)) = true ∧
    (512 < (sanitizePreTruncate input).length →
      (sanitizeString input).length = 512 ∧
      (sanitizeString input).drop 509 = ['.', '.', '.']) ∧
    ((sanitizePreTruncate input).length ≤ 512 →
      sanitizeString input = sanitizePreTruncate input) := by
  have hmem : ∀ c ∈ sanitizePreTruncate input, 32 ≤ c.toNat ∧ c.toNat ≠ 127 :=
    fun c hc => flatMap_goodChar _ c (pyStrip_subset _ hc)
  by_cases htr : MAX_LOG_STRING_LENGTH < (sanitizePreTruncate input).length
  · have htr' : 512 < (sanitizePreTruncate input).length := by
      simpa [MAX_LOG_STRING_LENGTH] using htr
    have heq : sanitizeString input =
        (sanitizePreTruncate input).take 509 ++ ['.', '.', '.'] := by
      simp only [sanitizeString]
      rw [if_pos htr]
      norm_num [MAX_LOG_STRING_LENGTH]
    have hlen_take : ((sanitizePreTruncate input).take 509).length = 509 := by
      rw [List.length_take]
      omega
    have hlen : (sanitizeString input).length = 512 := by
      rw [heq, List.length_append, hlen_take]
      rfl
    have hpre_ne : sanitizePreTruncate input ≠ [] := by
      intro hc
      rw [hc] at htr'
      simp at htr'
    refine ⟨le_of_eq hlen, ?_, ?_, ?_, ?_, fun _ => ⟨hlen, ?_⟩, fun hle => ?_⟩
    · intro c hc
      rw [heq] at hc
      rcases List.mem_append.mp hc with h | h
      · exact hmem c (List.take_subset _ _ h)
      · have : c = '.' := by simpa using h
        subst this
        decide
    · rw [heq, delimsEscaped]
      apply delims_append_nondelim _ _ (by decide) none
      exact delims_prefix _ _ (List.take_prefix _ _) none (delims_sanitize_pre input)
    · rw [heq, head_take_append _ _ _ (by omega) hpre_ne]
      exact pyStrip_head_ok _
    · rw [heq, List.getLast?_append]
      rfl
    · rw [heq, List.drop_left' hlen_take]
    · exact absurd hle (by omega)
  · have heq : sanitizeString input = sanitizePreTruncate input := by
      simp only [sanitizeString]
      rw [if_neg htr]
    have hle : (sanitizePreTruncate input).length ≤ 512 := by
      simp only [MAX_LOG_STRING_LENGTH, not_lt] at htr
      exact htr
    refine ⟨?_, ?_, ?_, ?_, ?_, fun hgt => absurd hgt (by omega), fun _ => heq⟩
    · rw [heq]
      exact hle
    · intro c hc
      exact hmem c (heq ▸ hc)
    · rw [heq]
      exact delims_sanitize_pre input
    · rw [heq]
      exact pyStrip_head_ok _
    · rw [heq]
      exact pyStrip_last_ok _

/-- C9 witness: the theorem applied at a 600-character input (truncation
branch) and at concrete inputs exercising the ANSI-stripping,
newline-collapsing, delimiter-escaping and trimming behavior. -/
theorem c9_sanitize_string_witness :
    ((sanitizeString (List.replicate 600 'a')).length = 512 ∧
     (sanitizeString (List.replicate 600 'a')).drop 509 = ['.', '.', '.']) ∧
    (32 ≤ 'r'.toNat ∧ 'r'.toNat ≠ 127) ∧
    sanitizeString ("  a\nb=c  ".toList) = ("a b\\=c".toList) ∧
    sanitizeString ("\x1b[31mred\x1b[0m".toList) = ("red".toList) := by
  refine ⟨(c9_sanitize_string (List.replicate 600 'a')).2.2.2.2.2.1 (by decide),
    (c9_sanitize_string ("\x1b[31mred\x1b[0m".toList)).2.1 'r' (by decide),
    by decide, by decide⟩

end OpenvasMcp
